import Mathlib

set_option maxRecDepth 40000

/-!
Verification of the ruma identifier grammar engine.

Identifier strings are modelled at the byte level: a Rust `&str` becomes a
`List Nat` of its UTF-8 bytes.  All slicing operations in the source
(`id[1..idx]`, `s.find(':')`, `starts_with`) are byte-indexed, so this
embedding is exact; the concrete inputs exercised below are all ASCII.
-/

/-- ASCII bytes of a string literal (all inputs used here are ASCII). -/
def asciiBytes (s : String) : List Nat :=
  s.data.map (fun c => c.toNat)

/-- Modelled from the spec (§7): the error taxonomy of the identifiers crate.
The `error.rs` module itself is not among the provided sources; the
constructors are exactly the kinds listed in the spec. -/
inductive IdError where
  | MaximumLengthExceeded
  | MinimumLengthNotSatisfied
  | MissingSigil
  | MissingDelimiter
  | MissingServerKeyDelimiter
  | InvalidHost
  | InvalidServerName
  | UnknownKeyAlgorithm
  | InvalidCharacters
deriving DecidableEq, Repr

instance {ε α : Type} [DecidableEq ε] [DecidableEq α] :
    DecidableEq (Except ε α) := fun x y =>
  match x, y with
  | .error a, .error b =>
    if h : a = b then .isTrue (congrArg Except.error h)
    else .isFalse (fun he => h (Except.error.inj he))
  | .ok a, .ok b =>
    if h : a = b then .isTrue (congrArg Except.ok h)
    else .isFalse (fun he => h (Except.ok.inj he))
  | .error _, .ok _ => .isFalse (fun he => Except.noConfusion he)
  | .ok _, .error _ => .isFalse (fun he => Except.noConfusion he)

/-- Byte index of the first occurrence of byte `b`, as Rust `str::find`. -/
def findByte (b : Nat) : List Nat → Option Nat
  | [] => none
  | c :: cs => if c = b then some 0 else (findByte b cs).map (· + 1)

/-- ASCII decimal digit. -/
def isDigitByte (b : Nat) : Bool :=
  48 ≤ b && b ≤ 57

/-- ASCII alphanumeric byte. -/
def isAlnumByte (b : Nat) : Bool :=
  isDigitByte b || (65 ≤ b && b ≤ 90) || (97 ≤ b && b ≤ 122)

/-- Byte allowed in an unbracketed host name: alphanumeric, hyphen or dot. -/
def isHostByte (b : Nat) : Bool :=
  isAlnumByte b || b = 45 || b = 46

/-- Hex digit or colon, the bytes allowed inside a bracketed IPv6 literal. -/
def isHexOrColonByte (b : Nat) : Bool :=
  isDigitByte b || (65 ≤ b && b ≤ 70) || (97 ≤ b && b ≤ 102) || b = 58

/-- Numeric value of a list of ASCII digit bytes (most significant first). -/
def digitsVal (ds : List Nat) : Nat :=
  ds.foldl (fun a d => a * 10 + (d - 48)) 0

/-- Parse a port string: non-empty, all decimal digits, value at most 65535.
Leading zeros are accepted and contribute nothing to the value, as in the
`url` crate's port parser. -/
def portVal (ds : List Nat) : Option Nat :=
  if ds.isEmpty then none
  else if ds.all isDigitByte then
    if digitsVal ds ≤ 65535 then some (digitsVal ds) else none
  else none

/-- ASCII decimal rendering of a number, as Rust `Display` for integers. -/
def natDecimal (n : Nat) : List Nat :=
  (Nat.toDigits 10 n).map (fun c => c.toNat)

/-- The observable fields of a parsed `url::Url` for an authority-only URL:
`host()` (absent for some URL shapes, hence an `Option`) and `port()`
(absent when unspecified or equal to the scheme default 443). -/
structure UrlView where
  host : Option (List Nat)
  port : Option Nat
deriving DecidableEq, Repr

/-- Split an authority string into host spelling and remainder: a bracketed
IPv6 literal runs to the closing bracket, otherwise the host runs to the
first colon (or the end). The two pieces always concatenate to the input. -/
def splitHostPort (raw : List Nat) : Except IdError (List Nat × List Nat) :=
  if raw.head? = some 91 then
    match findByte 93 (raw.drop 1) with
    | none => .error .InvalidServerName
    | some j => .ok (raw.take (j + 2), raw.drop (j + 2))
  else
    .ok (raw.take ((findByte 58 raw).getD raw.length),
         raw.drop ((findByte 58 raw).getD raw.length))

/-- Syntactic validity of a host spelling: a non-empty run of host bytes, or
a bracketed, non-empty run of hex/colon bytes. -/
def validHost (h : List Nat) : Bool :=
  if h.head? = some 91 then
    decide (2 < h.length) && ((h.drop 1).dropLast.all isHexOrColonByte)
  else
    !h.isEmpty && h.all isHostByte

/-- Modelled from the spec (§4.1 Authority Parser): the behaviour of
`url::Url::parse("https://" ++ raw)` restricted to the fields the engine
observes. The `url` crate is an external dependency, not part of this
repository. Every authority-grammar violation surfaces as
`InvalidServerName`, the error kind the crate's `From<url::ParseError>`
conversion produces (§4.1, §7); for the special `https` scheme a successful
parse always carries a host, and `port()` is `none` when the port is
unspecified or equals the scheme default 443. -/
def url_parse_https (raw : List Nat) : Except IdError UrlView :=
  match splitHostPort raw with
  | .error e => .error e
  | .ok hp =>
    if validHost hp.1 then
      match hp.2 with
      | [] => .ok ⟨some hp.1, none⟩
      | 58 :: pd =>
        match portVal pd with
        | some v => .ok ⟨some hp.1, if v = 443 then none else some v⟩
        | none => .error .InvalidServerName
      | _ => .error .InvalidServerName
    else
      .error .InvalidServerName

/-- From `src/src/lib.rs`: `validate_id` checks the identifier is within the
acceptable byte lengths (`MAX_BYTES = 255`, `MIN_CHARS = 4`). -/
def validate_id (id : List Nat) : Except IdError Unit :=
  if id.length > 255 then .error .MaximumLengthExceeded
  else if id.length < 4 then .error .MinimumLengthNotSatisfied
  else .ok ()

/-- From `src/src/lib.rs`: `parse_id` parses the localpart, host and port
from a string identifier. The host is represented by its spelling in the
input (the model applies no host normalization). -/
def parse_id (required_sigil : Nat) (id : List Nat) :
    Except IdError (List Nat × List Nat × Nat) :=
  match validate_id id with
  | .error e => .error e
  | .ok _ =>
    if id.head? = some required_sigil then
      match findByte 58 id with
      | none => .error .MissingDelimiter
      | some delimiter_index =>
        match url_parse_https (id.drop (delimiter_index + 1)) with
        | .error e => .error e
        | .ok url =>
          match url.host with
          | some host =>
            .ok ((id.take delimiter_index).drop 1, host, url.port.getD 443)
          | none => .error .InvalidHost
    else
      .error .MissingSigil

/-- From `src/src/lib.rs`: the `Display` implementation shared by identifier
types, omitting the port when it equals 443. -/
def display (sigil : Nat) (localpart host : List Nat) (port : Nat) :
    List Nat :=
  if port = 443 then
    sigil :: localpart ++ 58 :: host
  else
    sigil :: localpart ++ 58 :: host ++ 58 :: natDecimal port

/-- The 62-letter alphabet of `rand::distributions::Alphanumeric`. -/
def alnumAlphabet : List Nat :=
  asciiBytes "ABCDEFGHIJKLMNOPQRSTUVWXYZabcdefghijklmnopqrstuvwxyz0123456789"

/-- From `src/src/lib.rs`: `generate_localpart` draws `length` characters
from the alphanumeric alphabet. The process-wide random source is modelled
as an explicitly passed capability (spec §9): `rand i` selects the letter
sampled at step `i`. -/
def generate_localpart (rand : Nat → Nat) (length : Nat) : List Nat :=
  (List.range length).map (fun i => alnumAlphabet.getD (rand i % 62) 48)

/-- Modelled from the spec: the crypto-algorithms registry
(`ServerKeyAlgorithm`, not among the provided sources) is a fixed
enumerated set of known signing algorithms (§4.3); per the spec's literal
scenarios it contains `ed25519` and not `bogusalgo`. -/
def knownAlgorithms : List (List Nat) :=
  [asciiBytes "ed25519"]

/-- From `src/ruma-identifiers-validation/src/server_key_id.rs`:
`validate_server_key_algorithm` accepts exactly the members of the
registry, case-sensitively. -/
def validate_server_key_algorithm (algorithm : List Nat) :
    Except IdError Unit :=
  if knownAlgorithms.contains algorithm then .ok ()
  else .error .UnknownKeyAlgorithm

/-- From `src/ruma-identifiers-validation/src/server_key_id.rs`:
`validate_version` only rejects an empty version; the stricter
character-class check is commented out in the source. -/
def validate_version (version : List Nat) : Except IdError Unit :=
  if version.isEmpty then .error .MinimumLengthNotSatisfied
  else .ok ()

/-- From `src/ruma-identifiers-validation/src/server_key_id.rs`: `validate`.
The Rust source computes `s.find(':') as u8`, truncating the byte offset of
the first colon modulo 256 before the `NonZeroU8` check; the truncated
offset is then used for both slices. -/
def serverKeyValidate (s : List Nat) : Except IdError Nat :=
  match findByte 58 s with
  | none => .error .MissingServerKeyDelimiter
  | some colon_idx =>
    if colon_idx % 256 = 0 then .error .UnknownKeyAlgorithm
    else
      match validate_server_key_algorithm (s.take (colon_idx % 256)) with
      | .error e => .error e
      | .ok _ =>
        match validate_version (s.drop (colon_idx % 256 + 1)) with
        | .error e => .error e
        | .ok _ => .ok (colon_idx % 256)

/-- Modelled from the spec: the shared grammar validator of the newer
identifiers crate (the `validate_id(id, valid_sigils)` invoked by
`event_id.rs` but not itself among the provided sources), following §4.1
steps 1 and 2: length bounds first, then the leading-sigil check. -/
def validate_id_v2 (id : List Nat) (valid_sigils : List Nat) :
    Except IdError Unit :=
  if id.length > 255 then .error .MaximumLengthExceeded
  else if id.length < 4 then .error .MinimumLengthNotSatisfied
  else
    match id.head? with
    | some b => if valid_sigils.contains b then .ok () else .error .MissingSigil
    | none => .error .MissingSigil

/-- Modelled from the spec: the shared grammar parser of the newer
identifiers crate (the `parse_id(id, valid_sigils)` invoked by
`event_id.rs` but not itself among the provided sources), following §4.1
steps 3 and 4: after validation, locate the first colon (`MissingDelimiter`
when absent) and delegate the suffix to the authority parser; on success
the delimiter byte offset is returned. -/
def parse_id_v2 (id : List Nat) (valid_sigils : List Nat) :
    Except IdError Nat :=
  match validate_id_v2 id valid_sigils with
  | .error e => .error e
  | .ok _ =>
    match findByte 58 id with
    | none => .error .MissingDelimiter
    | some colon_idx =>
      match url_parse_https (id.drop (colon_idx + 1)) with
      | .error e => .error e
      | .ok url =>
        match url.host with
        | some _ => .ok colon_idx
        | none => .error .InvalidHost

/-- From `src/ruma-identifiers/src/event_id.rs`: an event ID stores the
full original string and the byte offset of the delimiting colon
(a `NonZeroU8` in the source, absent for opaque-form IDs). -/
structure EventId where
  full_id : List Nat
  colon_idx : Option Nat
deriving DecidableEq, Repr

/-- From `src/ruma-identifiers/src/event_id.rs`: `try_from` dispatches on
whether the string contains a colon: the legacy authority-bearing grammar
goes through `parse_id`, the opaque modern grammar only through
`validate_id`. -/
def EventId.try_from (event_id : List Nat) : Except IdError EventId :=
  if event_id.contains 58 then
    match parse_id_v2 event_id [36] with
    | .ok colon_idx => .ok ⟨event_id, some colon_idx⟩
    | .error e => .error e
  else
    match validate_id_v2 event_id [36] with
    | .ok _ => .ok ⟨event_id, none⟩
    | .error e => .error e

/-- From `src/ruma-identifiers/src/event_id.rs`: `localpart` returns
`full_id[1..idx]` where `idx` is the colon offset, or the full length for
opaque-form IDs. -/
def EventId.localpart (e : EventId) : List Nat :=
  (e.full_id.take (match e.colon_idx with
    | some idx => idx
    | none => e.full_id.length)).drop 1

/-- From `src/ruma-identifiers/src/event_id.rs`: `server_name` returns
`full_id[idx + 1..]` when a colon offset is stored, and `None` otherwise. -/
def EventId.server_name (e : EventId) : Option (List Nat) :=
  e.colon_idx.map (fun idx => e.full_id.drop (idx + 1))

/-- Modelled from the spec: `is_valid_server_name` (invoked by
`EventId::new` but not itself among the provided sources); per §4.4 the
server name must "satisfy the Authority Parser's host grammar". -/
def is_valid_server_name (name : List Nat) : Bool :=
  (url_parse_https name).isOk

/-- From `src/ruma-identifiers/src/event_id.rs`: `EventId::new` rejects an
invalid server name and otherwise assembles `"$" ++ localpart(18) ++ ":" ++
server_name` with the colon offset fixed at 19. The random source is an
explicit capability (spec §9). -/
def EventId.new (rand : Nat → Nat) (server_name : List Nat) :
    Except IdError EventId :=
  if !is_valid_server_name server_name then
    .error .InvalidServerName
  else
    .ok ⟨36 :: (generate_localpart rand 18 ++ 58 :: server_name), some 19⟩

theorem repoTest_server_key_ok : serverKeyValidate (asciiBytes "ed25519:abc") = .ok 7 := by decide
theorem repoTest_server_key_missing_delimiter : serverKeyValidate (asciiBytes "ed25519") =
    .error .MissingServerKeyDelimiter := by decide
theorem repoTest_server_key_empty_version : serverKeyValidate (asciiBytes "ed25519:") =
    .error .MinimumLengthNotSatisfied := by decide
theorem repoTest_server_key_unknown_algorithm : serverKeyValidate (asciiBytes "bogusalgo:abc") =
    .error .UnknownKeyAlgorithm := by decide
theorem repoTest_parse_valid_original_event_id : parse_id 36 (asciiBytes "$h29iv0s8:example.com") =
    .ok (asciiBytes "h29iv0s8", asciiBytes "example.com", 443) := by decide
theorem repoTest_invalid_event_id_host : parse_id 36 (asciiBytes "$39hvsi03hlne:/") =
    .error .InvalidServerName := by decide
theorem repoTest_invalid_event_id_port : parse_id 36 (asciiBytes "$39hvsi03hlne:example.com:notaport") =
    .error .InvalidServerName := by decide
theorem repoTest_non_standard_port : parse_id 36 (asciiBytes "$a:example.com:5000") =
    .ok (asciiBytes "a", asciiBytes "example.com", 5000) := by decide
theorem repoTest_explicit_standard_port : parse_id 36 (asciiBytes "$a:example.com:443") =
    .ok (asciiBytes "a", asciiBytes "example.com", 443) := by decide
theorem repoTest_ipv6_literal_host : parse_id 36 (asciiBytes "$a:[1234:5678::2]:8080") =
    .ok (asciiBytes "a", asciiBytes "[1234:5678::2]", 8080) := by decide
theorem repoTest_try_from_legacy : EventId.try_from (asciiBytes "$h29iv0s8:example.com") =
    .ok ⟨asciiBytes "$h29iv0s8:example.com", some 9⟩ := by decide
theorem repoTest_try_from_opaque :
    (EventId.try_from
      (asciiBytes "$acR1l0raoZnm60CBwAVgqbZqoO/mYU81xysh1u7XcJk")).isOk =
    true := by decide
theorem repoTest_missing_sigil : EventId.try_from (asciiBytes "39hvsi03hlne:example.com") =
    .error .MissingSigil := by decide
theorem repoTest_localpart_accessor : (EventId.mk (asciiBytes "$h29iv0s8:example.com") (some 9)).localpart
    = asciiBytes "h29iv0s8" := by decide
theorem repoTest_server_name_accessor : (EventId.mk (asciiBytes "$h29iv0s8:example.com")
      (some 9)).server_name = some (asciiBytes "example.com") := by decide
theorem repoTest_generate_valid : (EventId.new (fun _ => 0) (asciiBytes "example.com")).isOk = true :=
  by decide
theorem repoTest_generate_invalid : EventId.new (fun _ => 0) [] = .error .InvalidServerName := by decide

theorem findByte_split {b : Nat} {s : List Nat} {i : Nat}
    (h : findByte b s = some i) : s = s.take i ++ b :: s.drop (i + 1) := by
  induction s generalizing i with
  | nil => simp [findByte] at h
  | cons c cs ih =>
    by_cases hc : c = b
    · simp [findByte, hc] at h
      subst hc
      cases h
      simp
    · simp [findByte, hc] at h
      obtain ⟨j, hj, rfl⟩ := h
      simp only [List.take_succ_cons, List.drop_succ_cons, List.cons_append]
      exact congrArg (List.cons c) (ih hj)

theorem findByte_cons_pos {b c : Nat} {cs : List Nat} {i : Nat}
    (hc : c ≠ b) (h : findByte b (c :: cs) = some i) : 1 ≤ i := by
  simp [findByte, hc] at h
  obtain ⟨j, _, rfl⟩ := h
  omega

theorem take_eq_head_cons {s : List Nat} {a : Nat} {c : Nat}
    (hh : s.head? = some a) (hc : 1 ≤ c) :
    s.take c = a :: (s.take c).drop 1 := by
  cases s with
  | nil => simp at hh
  | cons x xs =>
    obtain rfl : x = a := by simpa using hh
    obtain ⟨k, rfl⟩ : ∃ k, c = k + 1 := ⟨c - 1, by omega⟩
    simp [List.take_succ_cons]

theorem splitHostPort_append {raw : List Nat} {p : List Nat × List Nat}
    (h : splitHostPort raw = .ok p) : raw = p.1 ++ p.2 := by
  unfold splitHostPort at h
  split at h
  · split at h
    · simp at h
    · simp only [Except.ok.injEq] at h
      subst h
      exact (List.take_append_drop _ _).symm
  · simp only [Except.ok.injEq] at h
    subst h
    exact (List.take_append_drop _ _).symm

theorem splitHostPort_error {raw : List Nat} {e : IdError}
    (h : splitHostPort raw = .error e) : e = .InvalidServerName := by
  unfold splitHostPort at h
  split at h
  · split at h
    · simp only [Except.error.injEq] at h
      exact h.symm
    · simp at h
  · simp at h

theorem url_parse_https_ok {raw : List Nat} {v : UrlView}
    (h : url_parse_https raw = .ok v) :
    ∃ hs rest, v.host = some hs ∧ raw = hs ++ rest ∧
      ((rest = [] ∧ v.port = none) ∨
       (∃ pd, rest = 58 :: pd ∧ portVal pd = some (v.port.getD 443))) := by
  unfold url_parse_https at h
  split at h
  · exact absurd h (by simp)
  · next hp heq =>
    have hra : raw = hp.1 ++ hp.2 := splitHostPort_append heq
    split at h
    · split at h
      · next h2 =>
        cases h
        exact ⟨hp.1, [], rfl, by rw [hra, h2], Or.inl ⟨rfl, rfl⟩⟩
      · next pd h2 =>
        split at h
        · next pv hpv =>
          cases h
          refine ⟨hp.1, 58 :: pd, rfl, by rw [hra, h2], Or.inr ⟨pd, rfl, ?_⟩⟩
          by_cases h443 : pv = 443 <;> simp [h443, hpv]
        · simp at h
      · simp at h
    · simp at h

theorem findByte_eq_none {b : Nat} {s : List Nat} (h : b ∉ s) :
    findByte b s = none := by
  induction s with
  | nil => rfl
  | cons c cs ih =>
    have hc : c ≠ b := fun hcb => h (hcb ▸ List.mem_cons_self c cs)
    simp [findByte, hc, ih (fun hm => h (List.mem_cons_of_mem c hm))]

theorem findByte_append_self {b : Nat} {l r : List Nat}
    (h : ∀ x ∈ l, x ≠ b) : findByte b (l ++ b :: r) = some l.length := by
  induction l with
  | nil => simp [findByte]
  | cons c cs ih =>
    have hc : c ≠ b := h c (List.mem_cons_self c cs)
    simp [findByte, hc, ih (fun x hx => h x (List.mem_cons_of_mem c hx))]

theorem findByte_pos_of_head {b a : Nat} {s : List Nat} {i : Nat}
    (hh : s.head? = some a) (hab : a ≠ b) (h : findByte b s = some i) :
    1 ≤ i := by
  cases s with
  | nil => simp at hh
  | cons x xs =>
    obtain rfl : x = a := by simpa using hh
    exact findByte_cons_pos hab h

theorem alnum_ne_colon {x : Nat} (hx : isAlnumByte x = true) : x ≠ 58 :=
  fun h => absurd hx (by subst h; decide)

theorem url_parse_https_error {raw : List Nat} {e : IdError}
    (h : url_parse_https raw = .error e) : e = .InvalidServerName := by
  unfold url_parse_https at h
  split at h
  · next e2 heq =>
    simp only [Except.error.injEq] at h
    subst h
    exact splitHostPort_error heq
  · split at h
    · split at h
      · simp at h
      · split at h
        · simp at h
        · simp only [Except.error.injEq] at h
          exact h.symm
      · simp only [Except.error.injEq] at h
        exact h.symm
    · simp only [Except.error.injEq] at h
      exact h.symm

theorem parse_id_v2_ok_find {s sigils : List Nat} {c : Nat}
    (h : parse_id_v2 s sigils = .ok c) : findByte 58 s = some c := by
  unfold parse_id_v2 at h
  split at h
  · simp at h
  · split at h
    · simp at h
    · next c2 hc2 =>
      split at h
      · simp at h
      · split at h
        · simp only [Except.ok.injEq] at h
          subst h
          exact hc2
        · simp at h

/-- C7: the server signing key validator settles the spec's literal
scenarios: `ed25519:abc` succeeds with delimiter offset 7 (algorithm
segment `ed25519`, version segment `abc`); `ed25519` without a colon fails
with `MissingServerKeyDelimiter`; `ed25519:` with an empty version fails
with `MinimumLengthNotSatisfied`; and `bogusalgo:abc` fails with
`UnknownKeyAlgorithm`. -/
theorem c7_server_key_scenarios :
    serverKeyValidate (asciiBytes "ed25519:abc") = .ok 7 ∧
    (asciiBytes "ed25519:abc").take 7 = asciiBytes "ed25519" ∧
    (asciiBytes "ed25519:abc").drop 8 = asciiBytes "abc" ∧
    serverKeyValidate (asciiBytes "ed25519") =
      .error .MissingServerKeyDelimiter ∧
    serverKeyValidate (asciiBytes "ed25519:") =
      .error .MinimumLengthNotSatisfied ∧
    serverKeyValidate (asciiBytes "bogusalgo:abc") =
      .error .UnknownKeyAlgorithm := by
  decide

/-- C3: for every sigil-based identifier kind, a candidate longer than 255
bytes is rejected with `MaximumLengthExceeded` and one shorter than 4 bytes
with `MinimumLengthNotSatisfied`, regardless of content: the length checks
run before the sigil and delimiter checks in `validate_id`, `parse_id` and
the event ID constructor. -/
theorem c3_length_errors_first (sigil : Nat) (s : List Nat) :
    (255 < s.length →
      validate_id s = .error .MaximumLengthExceeded ∧
      parse_id sigil s = .error .MaximumLengthExceeded ∧
      EventId.try_from s = .error .MaximumLengthExceeded) ∧
    (s.length < 4 →
      validate_id s = .error .MinimumLengthNotSatisfied ∧
      parse_id sigil s = .error .MinimumLengthNotSatisfied ∧
      EventId.try_from s = .error .MinimumLengthNotSatisfied) := by
  constructor
  · intro hlen
    have hv : validate_id s = .error .MaximumLengthExceeded := by
      unfold validate_id
      rw [if_pos (by omega)]
    have hv2 : validate_id_v2 s [36] = .error .MaximumLengthExceeded := by
      unfold validate_id_v2
      rw [if_pos (by omega)]
    have hp2 : parse_id_v2 s [36] = .error .MaximumLengthExceeded := by
      unfold parse_id_v2
      rw [hv2]
    refine ⟨hv, ?_, ?_⟩
    · unfold parse_id
      rw [hv]
    · unfold EventId.try_from
      by_cases hc : s.contains 58 = true
      · rw [if_pos hc, hp2]
      · rw [if_neg hc, hv2]
  · intro hlen
    have hv : validate_id s = .error .MinimumLengthNotSatisfied := by
      unfold validate_id
      rw [if_neg (by omega), if_pos (by omega)]
    have hv2 : validate_id_v2 s [36] = .error .MinimumLengthNotSatisfied := by
      unfold validate_id_v2
      rw [if_neg (by omega), if_pos (by omega)]
    have hp2 : parse_id_v2 s [36] = .error .MinimumLengthNotSatisfied := by
      unfold parse_id_v2
      rw [hv2]
    refine ⟨hv, ?_, ?_⟩
    · unfold parse_id
      rw [hv]
    · unfold EventId.try_from
      by_cases hc : s.contains 58 = true
      · rw [if_pos hc, hp2]
      · rw [if_neg hc, hv2]

/-- Witness for C3: a 300-byte identifier reports the maximum-length error
and a 2-byte identifier the minimum-length error, through both parsing
entry points. -/
theorem c3_length_errors_first_witness :
    (parse_id 36 (List.replicate 300 97) = .error .MaximumLengthExceeded ∧
     EventId.try_from (List.replicate 300 97) =
       .error .MaximumLengthExceeded) ∧
    (parse_id 36 (asciiBytes "$a") = .error .MinimumLengthNotSatisfied ∧
     EventId.try_from (asciiBytes "$a") =
       .error .MinimumLengthNotSatisfied) := by
  have h1 := (c3_length_errors_first 36 (List.replicate 300 97)).1 (by decide)
  have h2 := (c3_length_errors_first 36 (asciiBytes "$a")).2 (by decide)
  exact ⟨⟨h1.2.1, h1.2.2⟩, ⟨h2.2.1, h2.2.2⟩⟩

/-- C4 counterexample: the one-byte input `"a"` has a wrong leading byte
and an out-of-bounds length; the claim predicts `MissingSigil`, but both
the shared parser and the event ID constructor report the length error,
because the length check runs first. -/
theorem c4_counterexample :
    parse_id 36 [97] = .error .MinimumLengthNotSatisfied ∧
    EventId.try_from [97] = .error .MinimumLengthNotSatisfied ∧
    IdError.MinimumLengthNotSatisfied ≠ IdError.MissingSigil := by
  decide

/-- C4 amended: the sigil check runs after the length checks, not first:
for every input whose byte length lies within `[4, 255]`, a first byte
other than the expected sigil is rejected with `MissingSigil` before the
delimiter check; out-of-bounds inputs report the length error instead. -/
theorem c4_sigil_after_length (s : List Nat) (h4 : 4 ≤ s.length)
    (h255 : s.length ≤ 255) (hsig : s.head? ≠ some 36) :
    parse_id 36 s = .error .MissingSigil ∧
    EventId.try_from s = .error .MissingSigil := by
  have hv : validate_id s = .ok () := by
    unfold validate_id
    rw [if_neg (by omega), if_neg (by omega)]
  have hv2 : validate_id_v2 s [36] = .error .MissingSigil := by
    unfold validate_id_v2
    rw [if_neg (by omega), if_neg (by omega)]
    cases hh : s.head? with
    | none => rfl
    | some b =>
      have hb : b ≠ 36 := fun hb => hsig (by rw [hh, hb])
      simp [hb]
  have hp2 : parse_id_v2 s [36] = .error .MissingSigil := by
    unfold parse_id_v2
    rw [hv2]
  constructor
  · unfold parse_id
    rw [hv, if_neg hsig]
  · unfold EventId.try_from
    by_cases hc : s.contains 58 = true
    · rw [if_pos hc, hp2]
    · rw [if_neg hc, hv2]

/-- Witness for C4 amended: the spec's literal scenario
`39hvsi03hlne:example.com` (24 bytes, no leading sigil) is rejected with
`MissingSigil` by both entry points. -/
theorem c4_sigil_after_length_witness :
    parse_id 36 (asciiBytes "39hvsi03hlne:example.com") =
      .error .MissingSigil ∧
    EventId.try_from (asciiBytes "39hvsi03hlne:example.com") =
      .error .MissingSigil :=
  c4_sigil_after_length _ (by decide) (by decide) (by decide)

/-- C5 counterexample: `"$:example.com"`, whose first colon immediately
follows the sigil, is accepted by both the shared parser and the event ID
constructor, contradicting the claim that no such input is ever
accepted. -/
theorem c5_counterexample :
    (parse_id 36 (asciiBytes "$:example.com")).isOk = true ∧
    (EventId.try_from (asciiBytes "$:example.com")).isOk = true := by
  decide

/-- C5 amended: the parser performs no non-emptiness check on the
localpart: `"$:example.com"` is accepted, with an empty localpart and
server name `example.com`. -/
theorem c5_empty_localpart_accepted :
    parse_id 36 (asciiBytes "$:example.com") =
      .ok ([], asciiBytes "example.com", 443) ∧
    EventId.try_from (asciiBytes "$:example.com") =
      .ok ⟨asciiBytes "$:example.com", some 1⟩ ∧
    (EventId.mk (asciiBytes "$:example.com") (some 1)).localpart = [] ∧
    (EventId.mk (asciiBytes "$:example.com") (some 1)).server_name =
      some (asciiBytes "example.com") := by
  decide

/-- C10: the shared parser never returns `InvalidHost`: a successful parse
of the synthetic `https://` URL always carries a host, so the branch
matching an absent host is unreachable and malformed authority suffixes
surface as `InvalidServerName` instead. -/
theorem c10_invalid_host_unreachable (sigil : Nat) (s : List Nat) :
    parse_id sigil s ≠ .error .InvalidHost := by
  unfold parse_id
  split
  · next e heq =>
    have he : e = .MaximumLengthExceeded ∨ e = .MinimumLengthNotSatisfied := by
      unfold validate_id at heq
      split at heq
      · simp only [Except.error.injEq] at heq
        exact Or.inl heq.symm
      · split at heq
        · simp only [Except.error.injEq] at heq
          exact Or.inr heq.symm
        · simp at heq
    rcases he with rfl | rfl <;> simp
  · split
    · split
      · simp
      · next c hc =>
        split
        · next e heq =>
          have := url_parse_https_error heq
          subst this
          simp
        · next url hurl =>
          obtain ⟨hs, rest, hhost, -, -⟩ := url_parse_https_ok hurl
          rw [hhost]
          simp
    · simp

/-- Witness for C10 at the repo's own negative test input `"$39hvsi03hlne:/"`. -/
theorem c10_invalid_host_unreachable_witness :
    parse_id 36 (asciiBytes "$39hvsi03hlne:/") ≠ .error .InvalidHost :=
  c10_invalid_host_unreachable 36 (asciiBytes "$39hvsi03hlne:/")

/-- C8 counterexample: the claim predicts `UnknownKeyAlgorithm` for every
input whose first colon lies at offset 256 or more, but the source
truncates the offset with `as u8`: for an input whose first colon lies at
offset 263 (so the truncated offset is 7) and whose first 7 bytes spell
`ed25519`, validation succeeds. -/
theorem c8_counterexample :
    findByte 58
      (asciiBytes "ed25519" ++ List.replicate 256 88 ++ asciiBytes ":v") =
      some 263 ∧
    serverKeyValidate
      (asciiBytes "ed25519" ++ List.replicate 256 88 ++ asciiBytes ":v") =
      .ok 7 := by
  decide

/-- C8 amended: the delimiter offset is truncated modulo 256 by the `as u8`
cast: an input whose first colon lies at an offset that is at least 256
and divisible by 256 fails with `UnknownKeyAlgorithm` (the truncated
offset is zero and fails the `NonZeroU8` construction); for other offsets
of 256 or more, validation proceeds on the truncated offset and can even
succeed. -/
theorem c8_truncated_offset (s : List Nat) (i : Nat)
    (hfind : findByte 58 s = some i) (_h256 : 256 ≤ i)
    (hmod : i % 256 = 0) :
    serverKeyValidate s = .error .UnknownKeyAlgorithm := by
  unfold serverKeyValidate
  rw [hfind]
  simp [hmod]

/-- Witness for C8 amended: 256 letters followed by `:v` puts the first
colon at offset 256, and validation fails with `UnknownKeyAlgorithm`. -/
theorem c8_truncated_offset_witness :
    serverKeyValidate (List.replicate 256 97 ++ asciiBytes ":v") =
      .error .UnknownKeyAlgorithm :=
  c8_truncated_offset _ 256 (by decide) (by decide) (by decide)

/-- C9: for a first colon at offset 1..255, server key validation succeeds
(returning that offset) exactly when the algorithm segment is a
case-sensitive member of the known registry and the version segment is
non-empty; no overall length bound is enforced beyond these two
conditions, and the `InvalidCharacters` error is never returned for any
input (the character-class check is disabled in the source). -/
theorem c9_keyword_versioned_iff :
    (∀ (s : List Nat) (c : Nat), findByte 58 s = some c → 1 ≤ c →
      c ≤ 255 →
      (serverKeyValidate s = .ok c ↔
        (knownAlgorithms.contains (s.take c) = true ∧
         s.drop (c + 1) ≠ []))) ∧
    (∀ s : List Nat, serverKeyValidate s ≠ .error .InvalidCharacters) := by
  constructor
  · intro s c hfind h1 h255
    have hmod : c % 256 = c := Nat.mod_eq_of_lt (by omega)
    unfold serverKeyValidate
    rw [hfind]
    simp only [hmod]
    rw [if_neg (by omega)]
    by_cases hk : knownAlgorithms.contains (s.take c) = true
    · have ha : validate_server_key_algorithm (s.take c) = .ok () := by
        unfold validate_server_key_algorithm
        rw [if_pos hk]
      cases hv : (s.drop (c + 1)).isEmpty with
      | true =>
        have hb : validate_version (s.drop (c + 1)) =
            .error .MinimumLengthNotSatisfied := by
          unfold validate_version
          rw [if_pos hv]
        have hveq : s.drop (c + 1) = [] := by simpa using hv
        rw [ha, hb]
        constructor
        · intro h
          exact Except.noConfusion h
        · rintro ⟨-, hne2⟩
          exact absurd hveq hne2
      | false =>
        have hb : validate_version (s.drop (c + 1)) = .ok () := by
          unfold validate_version
          rw [if_neg (by simp [hv])]
        have hne : s.drop (c + 1) ≠ [] := fun he => by simp [he] at hv
        rw [ha, hb]
        constructor
        · intro _
          exact ⟨hk, hne⟩
        · intro _
          rfl
    · have ha : validate_server_key_algorithm (s.take c) =
          .error .UnknownKeyAlgorithm := by
        unfold validate_server_key_algorithm
        rw [if_neg hk]
      rw [ha]
      constructor
      · intro h
        exact Except.noConfusion h
      · rintro ⟨hmem, -⟩
        exact absurd hmem hk
  · intro s
    unfold serverKeyValidate
    split
    · simp
    · split
      · simp
      · split
        · next e heq =>
          have he : e = .UnknownKeyAlgorithm := by
            unfold validate_server_key_algorithm at heq
            split at heq
            · simp at heq
            · simp only [Except.error.injEq] at heq
              exact heq.symm
          subst he
          simp
        · split
          · next e heq =>
            have he : e = .MinimumLengthNotSatisfied := by
              unfold validate_version at heq
              split at heq
              · simp only [Except.error.injEq] at heq
                exact heq.symm
              · simp at heq
            subst he
            simp
          · simp

/-- Witness for C9: `ed25519:abc` (colon at offset 7) satisfies both
conditions and validates to offset 7, and is in particular never rejected
with `InvalidCharacters`. -/
theorem c9_keyword_versioned_iff_witness :
    serverKeyValidate (asciiBytes "ed25519:abc") = .ok 7 ∧
    serverKeyValidate (asciiBytes "ed25519:abc") ≠
      .error .InvalidCharacters := by
  refine ⟨(c9_keyword_versioned_iff.1 (asciiBytes "ed25519:abc") 7
    (by decide) (by decide) (by decide)).mpr (by decide),
    c9_keyword_versioned_iff.2 (asciiBytes "ed25519:abc")⟩

/-- C1: for every successfully constructed event identifier, the accessor
contract holds: a value parsed from a string with a colon stores the first
colon offset, `localpart` is the byte range strictly between the `$` sigil
and that colon, and `server_name` is the suffix after the colon; a value
parsed from a colon-free string has `localpart` equal to the entire body
after the sigil and `server_name` absent. -/
theorem c1_accessor_semantics (s : List Nat) (e : EventId)
    (h : EventId.try_from s = .ok e) :
    (∃ c, findByte 58 s = some c ∧ e.colon_idx = some c ∧
      e.localpart = (s.take c).drop 1 ∧
      e.server_name = some (s.drop (c + 1))) ∨
    (findByte 58 s = none ∧ e.colon_idx = none ∧
      e.localpart = s.drop 1 ∧ e.server_name = none) := by
  unfold EventId.try_from at h
  by_cases hc : s.contains 58 = true
  · rw [if_pos hc] at h
    cases hp : parse_id_v2 s [36] with
    | error e2 => rw [hp] at h; cases h
    | ok c =>
      rw [hp] at h
      cases h
      exact Or.inl ⟨c, parse_id_v2_ok_find hp, rfl, rfl, rfl⟩
  · rw [if_neg hc] at h
    cases hv : validate_id_v2 s [36] with
    | error e2 => rw [hv] at h; cases h
    | ok u =>
      rw [hv] at h
      cases h
      have hmem : 58 ∉ s := by
        intro hm
        exact hc (by simpa using hm)
      refine Or.inr ⟨findByte_eq_none hmem, rfl, ?_, rfl⟩
      simp [EventId.localpart]

/-- Witness for C1 at the spec's two literal scenarios: the legacy-form
`"$h29iv0s8:example.com"` and the opaque-form base64 event ID. -/
theorem c1_accessor_semantics_witness :
    ((∃ c, findByte 58 (asciiBytes "$h29iv0s8:example.com") = some c ∧
      (EventId.mk (asciiBytes "$h29iv0s8:example.com") (some 9)).colon_idx =
        some c ∧
      (EventId.mk (asciiBytes "$h29iv0s8:example.com") (some 9)).localpart =
        ((asciiBytes "$h29iv0s8:example.com").take c).drop 1 ∧
      (EventId.mk (asciiBytes "$h29iv0s8:example.com")
          (some 9)).server_name =
        some ((asciiBytes "$h29iv0s8:example.com").drop (c + 1))) ∨
     (findByte 58 (asciiBytes "$h29iv0s8:example.com") = none ∧
      (EventId.mk (asciiBytes "$h29iv0s8:example.com") (some 9)).colon_idx =
        none ∧
      (EventId.mk (asciiBytes "$h29iv0s8:example.com") (some 9)).localpart =
        (asciiBytes "$h29iv0s8:example.com").drop 1 ∧
      (EventId.mk (asciiBytes "$h29iv0s8:example.com")
          (some 9)).server_name = none)) ∧
    ((∃ c, findByte 58
        (asciiBytes "$acR1l0raoZnm60CBwAVgqbZqoO/mYU81xysh1u7XcJk") =
          some c ∧
      (EventId.mk
        (asciiBytes "$acR1l0raoZnm60CBwAVgqbZqoO/mYU81xysh1u7XcJk")
        none).colon_idx = some c ∧
      (EventId.mk
        (asciiBytes "$acR1l0raoZnm60CBwAVgqbZqoO/mYU81xysh1u7XcJk")
        none).localpart =
        ((asciiBytes
          "$acR1l0raoZnm60CBwAVgqbZqoO/mYU81xysh1u7XcJk").take c).drop 1 ∧
      (EventId.mk
        (asciiBytes "$acR1l0raoZnm60CBwAVgqbZqoO/mYU81xysh1u7XcJk")
        none).server_name =
        some ((asciiBytes
          "$acR1l0raoZnm60CBwAVgqbZqoO/mYU81xysh1u7XcJk").drop (c + 1))) ∨
     (findByte 58
        (asciiBytes "$acR1l0raoZnm60CBwAVgqbZqoO/mYU81xysh1u7XcJk") =
          none ∧
      (EventId.mk
        (asciiBytes "$acR1l0raoZnm60CBwAVgqbZqoO/mYU81xysh1u7XcJk")
        none).colon_idx = none ∧
      (EventId.mk
        (asciiBytes "$acR1l0raoZnm60CBwAVgqbZqoO/mYU81xysh1u7XcJk")
        none).localpart =
        (asciiBytes "$acR1l0raoZnm60CBwAVgqbZqoO/mYU81xysh1u7XcJk").drop
          1 ∧
      (EventId.mk
        (asciiBytes "$acR1l0raoZnm60CBwAVgqbZqoO/mYU81xysh1u7XcJk")
        none).server_name = none)) :=
  ⟨c1_accessor_semantics _ _ (by decide),
   c1_accessor_semantics _ _ (by decide)⟩

theorem findByte_cons_ne_head {b c : Nat} (hc : c ≠ b) (l : List Nat) :
    findByte b (c :: l) = (findByte b l).map (· + 1) := by
  simp [findByte, hc]

theorem generate_localpart_length (rand : Nat → Nat) (n : Nat) :
    (generate_localpart rand n).length = n := by
  simp [generate_localpart]

theorem generate_localpart_alnum (rand : Nat → Nat) (n : Nat) :
    ∀ b ∈ generate_localpart rand n, isAlnumByte b = true := by
  intro b hb
  simp [generate_localpart] at hb
  obtain ⟨i, -, rfl⟩ := hb
  have hlt : rand i % 62 < 62 := Nat.mod_lt _ (by omega)
  have hall : ∀ j < 62, isAlnumByte (alnumAlphabet[j]?.getD 48) = true := by
    decide
  exact hall _ hlt

theorem eventId_new_ok {rand : Nat → Nat} {sn : List Nat}
    (h : is_valid_server_name sn = true) :
    EventId.new rand sn =
      .ok ⟨36 :: (generate_localpart rand 18 ++ 58 :: sn), some 19⟩ := by
  unfold EventId.new
  rw [if_neg (by simp [h])]

theorem eventId_new_localpart (rand : Nat → Nat) (sn : List Nat) :
    (EventId.mk (36 :: (generate_localpart rand 18 ++ 58 :: sn))
      (some 19)).localpart = generate_localpart rand 18 := by
  generalize hGdef : generate_localpart rand 18 = G
  have hG1 : G.length = 18 := by
    rw [← hGdef]
    exact generate_localpart_length rand 18
  show ((36 :: (G ++ 58 :: sn)).take 19).drop 1 = G
  rw [show (19 : Nat) = 18 + 1 from rfl, List.take_succ_cons,
    List.drop_succ_cons, List.drop_zero, ← hG1, List.take_left]

/-- C6 amended: for every syntactically valid server name, `EventId::new`
never fails and returns an identifier whose localpart is exactly 18
alphanumeric characters; the returned identifier re-validates successfully
through the ordinary constructor provided the server name is at most 235
bytes, so that the assembled identifier fits the 255-byte bound (longer
valid server names yield identifiers that fail re-validation). -/
theorem c6_generation (rand : Nat → Nat) (server_name : List Nat)
    (hvalid : is_valid_server_name server_name = true) :
    (∃ e, EventId.new rand server_name = .ok e ∧
      e.localpart.length = 18 ∧
      (∀ b ∈ e.localpart, isAlnumByte b = true)) ∧
    (server_name.length ≤ 235 →
      ∀ e, EventId.new rand server_name = .ok e →
        (EventId.try_from e.full_id).isOk = true) := by
  have hnew := @eventId_new_ok rand server_name hvalid
  have hG1 : (generate_localpart rand 18).length = 18 :=
    generate_localpart_length rand 18
  have hG2 := generate_localpart_alnum rand 18
  have hlpeq := eventId_new_localpart rand server_name
  constructor
  · refine ⟨_, hnew, ?_, ?_⟩
    · rw [hlpeq, hG1]
    · rw [hlpeq]
      exact hG2
  · intro hlen e he
    rw [hnew] at he
    cases he
    have hflen :
        (36 :: (generate_localpart rand 18 ++ 58 :: server_name)).length =
          20 + server_name.length := by
      simp only [List.length_cons, List.length_append, hG1]
      omega
    have hnocolon : ∀ x ∈ generate_localpart rand 18, x ≠ 58 :=
      fun x hx => alnum_ne_colon (hG2 x hx)
    have hfind :
        findByte 58
          (36 :: (generate_localpart rand 18 ++ 58 :: server_name))
          = some 19 := by
      have h1 : findByte 58
          (generate_localpart rand 18 ++ 58 :: server_name) =
          some (generate_localpart rand 18).length :=
        findByte_append_self hnocolon
      simp only [findByte_cons_ne_head (show (36 : Nat) ≠ 58 by decide),
        h1, hG1]
      rfl
    have hv2 :
        validate_id_v2
          (36 :: (generate_localpart rand 18 ++ 58 :: server_name)) [36] =
          .ok () := by
      unfold validate_id_v2
      rw [hflen, if_neg (by omega), if_neg (by omega)]
      rfl
    have hdrop :
        (36 :: (generate_localpart rand 18 ++ 58 :: server_name)).drop
          (19 + 1) = server_name := by
      rw [show (19 + 1 : Nat) = 19 + 1 from rfl, List.drop_succ_cons,
        show (19 : Nat) = (generate_localpart rand 18).length + 1 from
          by rw [hG1],
        List.drop_append]
      simp
    have hauth : ∃ v, url_parse_https server_name = .ok v := by
      unfold is_valid_server_name at hvalid
      cases hu : url_parse_https server_name with
      | ok v => exact ⟨v, rfl⟩
      | error e2 =>
        rw [hu] at hvalid
        simp [Except.isOk, Except.toBool] at hvalid
    obtain ⟨v, hv⟩ := hauth
    obtain ⟨hs, rest, hhost, -, -⟩ := url_parse_https_ok hv
    have hp2 :
        parse_id_v2
          (36 :: (generate_localpart rand 18 ++ 58 :: server_name)) [36] =
          .ok 19 := by
      unfold parse_id_v2
      rw [hv2, hfind]
      simp only [hdrop, hv, hhost]
    have hcontains :
        (36 :: (generate_localpart rand 18 ++ 58 :: server_name)).contains
          58 = true := by
      simp
    show (EventId.try_from
      (36 :: (generate_localpart rand 18 ++ 58 :: server_name))).isOk = true
    unfold EventId.try_from
    rw [if_pos hcontains, hp2]
    rfl

/-- Witness for C6 amended at the repo's own test server name
`example.com`, with a fixed random source. -/
theorem c6_generation_witness :
    (∃ e, EventId.new (fun _ => 0) (asciiBytes "example.com") = .ok e ∧
      e.localpart.length = 18 ∧
      (∀ b ∈ e.localpart, isAlnumByte b = true)) ∧
    ((asciiBytes "example.com").length ≤ 235 →
      ∀ e, EventId.new (fun _ => 0) (asciiBytes "example.com") = .ok e →
        (EventId.try_from e.full_id).isOk = true) :=
  c6_generation (fun _ => 0) (asciiBytes "example.com") (by decide)

/-- C6 counterexample: a 300-byte run of `a` is a syntactically valid
server name (every byte is alphanumeric), so `EventId::new` succeeds, but
the assembled 320-byte identifier fails re-validation with
`MaximumLengthExceeded` — the claim that generated identifiers always
re-validate is false. -/
theorem c6_counterexample :
    is_valid_server_name (List.replicate 300 97) = true ∧
    EventId.new (fun _ => 0) (List.replicate 300 97) =
      .ok ⟨36 :: (generate_localpart (fun _ => 0) 18 ++
            58 :: List.replicate 300 97), some 19⟩ ∧
    EventId.try_from
        (36 :: (generate_localpart (fun _ => 0) 18 ++
          58 :: List.replicate 300 97)) =
      .error .MaximumLengthExceeded := by
  exact ⟨by decide, by decide, by decide⟩

/-- C2 counterexample: `"$abcd:example.com:0443"` is well-formed and parses
(its port suffix `0443` has numeric value 443), yet re-rendering yields
`"$abcd:example.com"` — the output differs from the input although the
input carries no `":443"` suffix, and the input is not the output plus
`":443"` either; likewise `"$abcd:example.com:08080"` re-renders with the
non-443 port rewritten to `":8080"` rather than preserved verbatim. -/
theorem c2_counterexample :
    parse_id 36 (asciiBytes "$abcd:example.com:0443") =
      .ok (asciiBytes "abcd", asciiBytes "example.com", 443) ∧
    display 36 (asciiBytes "abcd") (asciiBytes "example.com") 443 =
      asciiBytes "$abcd:example.com" ∧
    asciiBytes "$abcd:example.com" ≠ asciiBytes "$abcd:example.com:0443" ∧
    asciiBytes "$abcd:example.com:0443" ≠
      asciiBytes "$abcd:example.com" ++ asciiBytes ":443" ∧
    parse_id 36 (asciiBytes "$abcd:example.com:08080") =
      .ok (asciiBytes "abcd", asciiBytes "example.com", 8080) ∧
    display 36 (asciiBytes "abcd") (asciiBytes "example.com") 8080 =
      asciiBytes "$abcd:example.com:8080" ∧
    asciiBytes "$abcd:example.com:8080" ≠
      asciiBytes "$abcd:example.com:08080" := by
  decide

/-- C2 amended: parsing a well-formed legacy-form identifier and
re-rendering preserves the sigil, localpart and host bytes verbatim, while
the port suffix is omitted whenever its parsed numeric value is 443
(including non-canonical spellings such as `":0443"`) and otherwise
re-rendered as the canonical decimal numeral of its value; the original
string is therefore reproduced exactly when the input had no port suffix,
and when its port suffix is a canonical decimal other than 443. -/
theorem c2_roundtrip (s localpart host : List Nat) (port : Nat)
    (h : parse_id 36 s = .ok (localpart, host, port)) :
    ∃ rest, s = 36 :: (localpart ++ 58 :: (host ++ rest)) ∧
      ((rest = [] ∧ port = 443) ∨
       (∃ pd, rest = 58 :: pd ∧ portVal pd = some port)) ∧
      display 36 localpart host port =
        36 :: (localpart ++ 58 :: (host ++
          (if port = 443 then [] else 58 :: natDecimal port))) := by
  unfold parse_id at h
  split at h
  · exact absurd h (by simp)
  · split at h
    · next hhead =>
      split at h
      · exact absurd h (by simp)
      · next c hc =>
        split at h
        · exact absurd h (by simp)
        · next url hurl =>
          split at h
          · next hostS hhostS =>
            simp only [Except.ok.injEq, Prod.mk.injEq] at h
            obtain ⟨hlp, hhost2, hport⟩ := h
            obtain ⟨hs2, rest, hhosteq, hraw, hrest⟩ :=
              url_parse_https_ok hurl
            have hhseq : hs2 = hostS := by
              rw [hhostS] at hhosteq
              exact (Option.some.inj hhosteq).symm
            refine ⟨rest, ?_, ?_, ?_⟩
            · have hsplit : s = s.take c ++ 58 :: s.drop (c + 1) :=
                findByte_split hc
              have hpos : 1 ≤ c :=
                findByte_pos_of_head hhead (by decide) hc
              have htake : s.take c = 36 :: (s.take c).drop 1 :=
                take_eq_head_cons hhead hpos
              conv_lhs => rw [hsplit]
              rw [htake, hlp, hraw, hhseq, hhost2]
              simp
            · rcases hrest with ⟨hrnil, hpnone⟩ | ⟨pd, hrpd, hpv⟩
              · refine Or.inl ⟨hrnil, ?_⟩
                rw [← hport, hpnone]
                rfl
              · refine Or.inr ⟨pd, hrpd, ?_⟩
                rw [← hport]
                exact hpv
            · unfold display
              by_cases hp443 : port = 443
              · rw [if_pos hp443, if_pos hp443]
                simp
              · rw [if_neg hp443, if_neg hp443]
                simp
          · exact absurd h (by simp)
    · exact absurd h (by simp)

/-- Witness for C2 amended at the spec's literal legacy-form scenario
`"$h29iv0s8:example.com"` (no port suffix, so the round-trip is exact). -/
theorem c2_roundtrip_witness :
    ∃ rest, asciiBytes "$h29iv0s8:example.com" =
      36 :: (asciiBytes "h29iv0s8" ++
        58 :: (asciiBytes "example.com" ++ rest)) ∧
      ((rest = [] ∧ (443 : Nat) = 443) ∨
       (∃ pd, rest = 58 :: pd ∧ portVal pd = some 443)) ∧
      display 36 (asciiBytes "h29iv0s8") (asciiBytes "example.com") 443 =
        36 :: (asciiBytes "h29iv0s8" ++
          58 :: (asciiBytes "example.com" ++
            (if (443 : Nat) = 443 then [] else 58 :: natDecimal 443))) :=
  c2_roundtrip _ _ _ _ (by decide)
